import Mathlib

/-!
Verification development for the syzygy capture-and-audio engine.

The definitions below are shallow embeddings of the C++ code in
`src/capture/capture_session.cpp` and `src/audio/pipewire_controller.cpp`:
pure arithmetic becomes Lean functions on `Nat`/`Int`/`Rat` (the C++
`double`/`float` arithmetic is modelled by exact rational arithmetic),
fallible stateful sequences become explicit state-passing functions over an
oracle record describing which external (ioctl / PipeWire) steps succeed.
-/

namespace Syzygy

/-! ## YUYV → RGB pixel conversion (`CaptureSession::yuyv_to_rgb`) -/

/-- One set of fixed-point (×256) conversion coefficients, as in the four
`coeff_*` locals of `yuyv_to_rgb`. -/
structure CoeffSet where
  r_v : Int
  g_u : Int
  g_v : Int
  b_u : Int
  deriving DecidableEq, Repr

/-- The BT.709 coefficient set of `yuyv_to_rgb` (`use_bt709` branch). -/
def bt709 : CoeffSet := ⟨459, 55, 136, 541⟩

/-- The BT.601 coefficient set of `yuyv_to_rgb`. -/
def bt601 : CoeffSet := ⟨409, 100, 208, 516⟩

/-- The condition `use_bt709 = (width >= 1280 || height >= 720)` in
`yuyv_to_rgb`. -/
def useBT709 (width height : Nat) : Bool :=
  1280 ≤ width || 720 ≤ height

/-- The coefficient set `yuyv_to_rgb` uses for a `width × height` image. -/
def selectCoeffs (width height : Nat) : CoeffSet :=
  if useBT709 width height then bt709 else bt601

/-- Arithmetic shift right by 8 on a C++ `int`: floor division by 256. -/
def sar8 (x : Int) : Int := Int.fdiv x 256

/-- The clamp `std::clamp(x, 0, 255)`. -/
def clamp255 (x : Int) : Int := max 0 (min 255 x)

/-- The `convert` lambda inside `yuyv_to_rgb`: one luma sample plus the
shared chroma offsets `d = u - 128`, `e = v - 128` to one RGB triple, in
fixed-point (×256) integer arithmetic, clamped to `[0,255]`. -/
def convertSample (k : CoeffSet) (y : Nat) (d e : Int) : Int × Int × Int :=
  let c : Int := max 0 ((y : Int) - 16)
  let r := sar8 (298 * c + k.r_v * e + 128)
  let g := sar8 (298 * c - k.g_u * d - k.g_v * e + 128)
  let b := sar8 (298 * c + k.b_u * d + 128)
  (clamp255 r, clamp255 g, clamp255 b)

/-- One YUYV macropixel (4 source bytes `y0 u y1 v`) to two RGB pixels,
as produced by the body of the conversion loop for a `width × height`
image. -/
def yuyvMacropixel (width height : Nat) (y0 u y1 v : Nat) :
    (Int × Int × Int) × (Int × Int × Int) :=
  let k := selectCoeffs width height
  let d : Int := (u : Int) - 128
  let e : Int := (v : Int) - 128
  (convertSample k y0 d e, convertSample k y1 d e)

end Syzygy

namespace Syzygy

/-! ## Capture mode selection (`CaptureSession::configure_device`)

The nested `VIDIOC_ENUM_FMT` / `VIDIOC_ENUM_FRAMESIZES` /
`VIDIOC_ENUM_FRAMEINTERVALS` loops produce, in enumeration order, a flat
sequence of YUYV discrete-size candidates, each with a frame interval
`numerator / denominator`. `evaluate_mode` is folded over that sequence. -/

/-- One enumerated capture-mode candidate as passed to `evaluate_mode`. -/
structure Mode where
  width : Nat
  height : Nat
  num : Nat
  den : Nat
  deriving DecidableEq, Repr

/-- The guard of `evaluate_mode`: a candidate is skipped when its interval
numerator or denominator is zero (with natural-number fields, `fps > 0`
then holds automatically). -/
def Mode.valid (m : Mode) : Prop := m.num ≠ 0 ∧ m.den ≠ 0

instance (m : Mode) : Decidable m.valid := by unfold Mode.valid; infer_instance

/-- The value `fps = interval.denominator / interval.numerator`, a `double`
computed in `evaluate_mode`, modelled exactly as a rational. -/
def Mode.fps (m : Mode) : ℚ := (m.den : ℚ) / (m.num : ℚ)

/-- The value `score = width * height * fps` computed by `evaluate_mode`. -/
def Mode.score (m : Mode) : ℚ := (m.width : ℚ) * (m.height : ℚ) * m.fps

/-- One `evaluate_mode` call: the accumulated best candidate is replaced
exactly when the new candidate is valid and either no valid candidate has
been seen yet (`!best.valid`) or the new score is strictly greater. -/
def evaluateMode (best : Option Mode) (m : Mode) : Option Mode :=
  if m.valid then
    match best with
    | none => some m
    | some b => if b.score < m.score then some m else some b
  else best

/-- The complete enumeration fold of `configure_device`: the final `best`
candidate (or `none` when no valid candidate was enumerated, in which case
the previously configured default format is kept). -/
def selectBest (ms : List Mode) : Option Mode :=
  ms.foldl evaluateMode none

/-- Fold invariant: after scanning `ms`, either no valid candidate was seen,
or the accumulator holds a valid candidate of maximal score occurring at a
position strictly after every valid candidate of score `≥` its own. -/
def BestSpec (ms : List Mode) : Option Mode → Prop
  | none => ∀ m ∈ ms, ¬ m.valid
  | some b =>
      b.valid ∧ (∀ m ∈ ms, m.valid → m.score ≤ b.score) ∧
      ∃ l₁ l₂, ms = l₁ ++ b :: l₂ ∧ ∀ m ∈ l₁, m.valid → m.score < b.score

/-! ## Audio FIFO and gain (`PipeWireController::Impl`)

The FIFO is a `std::deque<int16_t>` guarded by a mutex; we model it as a
`List Int` (front of the deque = head of the list). `kMaxBufferedSeconds`
is `1.0`, so `max_fifo_samples = rate * channels` exactly. -/

/-- The bound `max_fifo_samples` as computed in `start` and
`configure_from_format`
(with `kMaxBufferedSeconds = 1.0`; the `== 0` fallback also yields
`rate * channels`). -/
def maxFifoSamples (rate channels : Nat) : Nat := rate * channels

/-- The loop `while (fifo.size() > limit) fifo.pop_front();` — drop oldest samples
(the front) until the size is at most `limit`. -/
def trimFront (l : List Int) (limit : Nat) : List Int :=
  l.drop (l.length - limit)

/-- The FIFO section of `Impl::on_capture_process`: a buffer carrying
`new` samples (already gain-processed) is appended sample by sample, then
the FIFO is trimmed from the front down to
`limit = max(max_fifo_samples, samples_to_push * 4)`. A zero-length buffer
(`chunk->size == 0`, or fewer bytes than one frame) is skipped and leaves
the FIFO untouched. -/
def captureStep (maxFifo : Nat) (fifo buf : List Int) : List Int :=
  if buf.length = 0 then fifo
  else trimFront (fifo ++ buf) (max maxFifo (4 * buf.length))

/-- The copy loop of `Impl::drain_to_playback`:
`while (copied < samples_needed && !fifo.empty())` pops the FIFO front into
the sink buffer. Returns (samples copied out, remaining FIFO). -/
def copyLoop : List Int → Nat → List Int × List Int
  | f, 0 => ([], f)
  | [], _ + 1 => ([], [])
  | x :: f, n + 1 =>
    let p := copyLoop f n
    (x :: p.1, p.2)

/-- The sample-filling part of `Impl::drain_to_playback`: copy from the
FIFO front, then `std::fill` the remainder of the requested
`samples_needed` with zeros. Returns (sink buffer contents, remaining
FIFO). -/
def playbackStep (fifo : List Int) (needed : Nat) : List Int × List Int :=
  let p := copyLoop fifo needed
  (p.1 ++ List.replicate (needed - p.1.length) 0, p.2)

/-- Truncation toward zero, the semantics of `static_cast<int16_t>` on an
in-range value. -/
def qtrunc (q : ℚ) : ℤ := if q < 0 then ⌈q⌉ else ⌊q⌋

/-- The gain stage of `Impl::on_capture_process`, for one sample: the scale
and clamp run only when `std::abs(gain - 1.0f) > 1e-3f`; the `float`
arithmetic is modelled exactly on ℚ
(`value = sample * gain; value = std::clamp(value, -32768.f, 32767.f);
samples[i] = static_cast<int16_t>(value)`). -/
def applyGain (g : ℚ) (s : ℤ) : ℤ :=
  if 1 / 1000 < |g - 1| then
    qtrunc (max (-32768) (min 32767 ((s : ℚ) * g)))
  else s

/-! ## Capture session lifecycle (`CaptureSession`)

`start` / `stop` / `set_latency_preset` / `configure_device` /
`teardown_buffers`, with the external open / ioctl / mmap calls abstracted
into an oracle record saying which steps succeed. -/

/-- The `enum class LatencyPreset` from `capture_device.hpp`. -/
inductive LatencyPreset
  | UltraLow
  | Balanced
  | Safe
  deriving DecidableEq, Repr

/-- The map `preset_to_buffer_count` from `capture_session.cpp`. -/
def preset_to_buffer_count : LatencyPreset → Nat
  | .UltraLow => 2
  | .Balanced => 4
  | .Safe => 6

/-- Outcome of each external step `configure_device` performs, in program
order. `reqbufsCount` is the driver-adjusted buffer count returned by
`VIDIOC_REQBUFS` for a requested count; the per-index oracles govern the
`VIDIOC_QUERYBUF` / `mmap` / `VIDIOC_QBUF` loop. -/
structure DeviceBehavior where
  openOk : Bool
  querycapOk : Bool
  hasVideoCapture : Bool
  hasStreaming : Bool
  sFmtOk : Bool
  reqbufsOk : Bool
  reqbufsCount : Nat → Nat
  querybufOk : Nat → Bool
  mmapOk : Nat → Bool
  qbufOk : Nat → Bool
  streamonOk : Bool

/-- The observable resources and fields of a `CaptureSession`:
`device_path_`, `preset_`, whether `fd_ >= 0`, the indices of currently
mmapped kernel buffers (`buffers_` entries with a non-null `start`), and
the `running_` flag. -/
structure SessionState where
  devicePath : String
  preset : LatencyPreset
  fdOpen : Bool
  mapped : List Nat
  running : Bool
  deriving DecidableEq, Repr

/-- The buffer map/enqueue loop of `configure_device` over indices
`i, i+1, …` (`n` indices remaining): `VIDIOC_QUERYBUF`, then `mmap`, then
`VIDIOC_QBUF`; the first failing step aborts, leaving exactly the buffers
mapped so far (a buffer is recorded in `buffers_` after its `mmap`
succeeds, before its `VIDIOC_QBUF` is attempted). -/
def mapBuffersAux (dev : DeviceBehavior) : Nat → Nat → List Nat → Bool × List Nat
  | _, 0, acc => (true, acc)
  | i, n + 1, acc =>
    if ¬ dev.querybufOk i then (false, acc)
    else if ¬ dev.mmapOk i then (false, acc)
    else if ¬ dev.qbufOk i then (false, acc ++ [i])
    else mapBuffersAux dev (i + 1) n (acc ++ [i])

/-- The body of `CaptureSession::configure_device`: open, `VIDIOC_QUERYCAP`, the mode
enumeration (elided here — `selectBest` above — it cannot fail), the two
capability checks, `VIDIOC_S_FMT`, `VIDIOC_S_PARM` (whose failure is only
logged), `VIDIOC_REQBUFS`, the buffer loop, `VIDIOC_STREAMON`. Early
returns leave whatever was allocated so far in the state — `start` is
responsible for the cleanup. -/
def configureDevice (dev : DeviceBehavior) (st : SessionState) :
    Bool × SessionState :=
  if ¬ dev.openOk then (false, { st with fdOpen := false, mapped := [] })
  else
    let st1 : SessionState := { st with fdOpen := true, mapped := [] }
    if ¬ dev.querycapOk then (false, st1)
    else if ¬ dev.hasVideoCapture then (false, st1)
    else if ¬ dev.hasStreaming then (false, st1)
    else if ¬ dev.sFmtOk then (false, st1)
    else if ¬ dev.reqbufsOk then (false, st1)
    else
      let count := dev.reqbufsCount (preset_to_buffer_count st1.preset)
      let r := mapBuffersAux dev 0 count []
      let st2 : SessionState := { st1 with mapped := r.2 }
      if ¬ r.1 then (false, st2)
      else if ¬ dev.streamonOk then (false, st2)
      else (true, st2)

/-- The body of `CaptureSession::teardown_buffers`: best-effort `VIDIOC_STREAMOFF`,
`munmap` every recorded buffer, clear the vector, close the descriptor. -/
def teardownBuffers (st : SessionState) : SessionState :=
  { st with mapped := [], fdOpen := false }

/-- The body of `CaptureSession::stop`: clear `running_`, join the worker, tear down
buffers (idempotent). -/
def stopSession (st : SessionState) : SessionState :=
  teardownBuffers { st with running := false }

/-- The body of `CaptureSession::start`: stop any previous session, record the device
path and preset, run `configure_device`; on success set `running_` and
spawn the streaming worker, on failure tear everything down and return
`false`. -/
def startSession (dev : DeviceBehavior) (path : String)
    (preset : LatencyPreset) (st : SessionState) : Bool × SessionState :=
  let st0 : SessionState :=
    { stopSession st with devicePath := path, preset := preset }
  let r := configureDevice dev st0
  if r.1 then (true, { r.2 with running := true })
  else (false, teardownBuffers r.2)

/-- The body of `CaptureSession::set_latency_preset`: no-op on an unchanged preset;
record the new preset; when not running that is all; when running, stop
and restart on the remembered path with the new preset. -/
def setLatencyPreset (dev : DeviceBehavior) (preset : LatencyPreset)
    (st : SessionState) : Bool × SessionState :=
  if preset = st.preset then (true, st)
  else
    let st1 : SessionState := { st with preset := preset }
    if ¬ st.running then (true, st1)
    else startSession dev st1.devicePath preset (stopSession st1)

/-! ## Audio controller start (`PipeWireController::start`)

The PipeWire calls are abstracted into an oracle: the result of the
time-boxed `find_source_node` scan, and whether `pw_main_loop_new`,
`ensure_playback_stream` and `create_capture_stream` succeed. -/

structure AudioBackend where
  resolveFinds : Option Nat
  loopOk : Bool
  playbackOk : Bool
  captureOk : Bool

structure AudioStartResult where
  ok : Bool
  fallback : Bool
  resolvedNode : Option Nat
  deriving DecidableEq, Repr

/-- The body of `PipeWireController::start` (PipeWire compiled in, `impl_` present):
resets `fallback_route`, resolves the node (an explicit id binds directly;
otherwise the time-boxed scan runs, and on no match `fallback_route` is
set and the default route — `PW_ID_ANY` — is used); fails when the main
loop cannot be created; a playback-stream failure is only logged; fails
when the capture stream cannot be created; otherwise succeeds. -/
def pwStart (be : AudioBackend) (nodeId : Option Nat) : AudioStartResult :=
  let resolved := match nodeId with
    | some n => some n
    | none => be.resolveFinds
  let fallback := nodeId.isNone && be.resolveFinds.isNone
  if ¬ be.loopOk then
    { ok := false, fallback := fallback, resolvedNode := resolved }
  else if ¬ be.captureOk then
    { ok := false, fallback := fallback, resolvedNode := resolved }
  else
    { ok := true, fallback := fallback, resolvedNode := resolved }

/-! ## Audio source-node resolution (`find_source_node` and
`registry_global_cb`)

Registry globals arrive one at a time, in enumeration order; the callback
ignores everything once `finder->node_id` is set. -/

/-- The properties of one registry global relevant to
`registry_global_cb`: its id, whether its type is `PW_TYPE_INTERFACE_Node`,
and the looked-up `spa_dict` keys (`none` models an absent key). -/
structure NodeProps where
  id : Nat
  isNode : Bool
  mediaClass : Option String
  deviceBusPath : Option String
  deviceBus : Option String
  deviceSerial : Option String
  nodeDescription : Option String
  nodeName : Option String
  deviceDescription : Option String
  deriving DecidableEq, Repr

/-- Case-sensitive substring test, `std::string_view::find != npos`. -/
def containsSub (hay needle : String) : Bool :=
  decide (needle.toList <:+: hay.toList)

/-- The helper `contains_ci` from `pipewire_controller.cpp`: case-insensitive (ASCII
`tolower`) substring search; an empty needle never matches. -/
def containsCI (hay needle : String) : Bool :=
  !needle.isEmpty &&
    decide (needle.toList.map Char.toLower <:+: hay.toList.map Char.toLower)

/-- The hint list built by the `SourceFinder` constructor: the label hint
itself plus, when it contains a colon, its colon-delimited prefix. -/
def buildHints (label : Option String) : List String :=
  match label with
  | none => []
  | some l =>
    if l.isEmpty then []
    else if l.toList.contains ':' then
      [l, String.mk (l.toList.takeWhile (fun c => c ≠ ':'))]
    else [l]

/-- One hint against one optional description/name field: the field must be
present and non-empty and contain the hint case-insensitively. -/
def matchField (f : Option String) (h : String) : Bool :=
  match f with
  | none => false
  | some s => !s.isEmpty && containsCI s h

/-- The per-hint loop body of `registry_global_cb`: node description, node
name, then device description. -/
def hintMatches (n : NodeProps) (h : String) : Bool :=
  !h.isEmpty &&
    (matchField n.nodeDescription h || matchField n.nodeName h ||
      matchField n.deviceDescription h)

/-- The callback `registry_global_cb` for one registry global (with no match recorded
yet): require a `Node` of media class containing `"Audio/Source"`, then
try the bus identifier — `device.bus-path`, else `device.bus`, else
`device.serial` — against the finder's bus string (exact equality); failing
that, try each hint against the description/name fields. -/
def matchNode (bus : String) (hints : List String) (n : NodeProps) :
    Option Nat :=
  if ¬ n.isNode then none
  else
    match n.mediaClass with
    | none => none
    | some mc =>
      if ¬ containsSub mc "Audio/Source" then none
      else
        let busv := (n.deviceBusPath.orElse fun _ =>
          (n.deviceBus.orElse fun _ => n.deviceSerial))
        match busv with
        | some b =>
          if bus = b then some n.id
          else if hints.any (hintMatches n) then some n.id
          else none
        | none =>
          if hints.any (hintMatches n) then some n.id
          else none

/-- The registry scan of `find_source_node`: callbacks fire in enumeration
order, and once a node id is recorded every later global is ignored
(`if (finder->node_id) return;`), so the first match wins. -/
def scanNodes (bus : String) (hints : List String)
    (nodes : List NodeProps) : Option Nat :=
  nodes.foldl
    (fun acc n =>
      match acc with
      | some i => some i
      | none => matchNode bus hints n)
    none

/-- A node that matches the description hint "Cap Device" but has a
different bus path (fixture). -/
def descOnlyNode : NodeProps where
  id := 1
  isNode := true
  mediaClass := some "Audio/Source"
  deviceBusPath := some "usb-9"
  deviceBus := none
  deviceSerial := none
  nodeDescription := some "Cap Device Analog Stereo"
  nodeName := some "alsa_input.usb-9"
  deviceDescription := none

/-- A node whose bus path exactly equals the busPath hint but matches no
description hint (fixture). -/
def busMatchNode : NodeProps where
  id := 2
  isNode := true
  mediaClass := some "Audio/Source"
  deviceBusPath := some "usb-0000.14.2"
  deviceBus := none
  deviceSerial := none
  nodeDescription := some "Other Microphone"
  nodeName := some "alsa_input.other"
  deviceDescription := none

/-- A non-matching audio source node (fixture). -/
def unrelatedNode : NodeProps where
  id := 3
  isNode := true
  mediaClass := some "Audio/Source"
  deviceBusPath := some "pci-7"
  deviceBus := none
  deviceSerial := none
  nodeDescription := some "Webcam Mic"
  nodeName := some "alsa_input.webcam"
  deviceDescription := none

/-- A device whose `VIDIOC_QUERYCAP` fails and everything else succeeds
(concrete fixture for witnesses). -/
def querycapFailDevice : DeviceBehavior where
  openOk := true
  querycapOk := false
  hasVideoCapture := true
  hasStreaming := true
  sFmtOk := true
  reqbufsOk := true
  reqbufsCount := fun n => n
  querybufOk := fun _ => true
  mmapOk := fun _ => true
  qbufOk := fun _ => true
  streamonOk := true

/-- A concrete running session (fixture for witnesses). -/
def runningState : SessionState where
  devicePath := "/dev/video0"
  preset := .Balanced
  fdOpen := true
  mapped := [0, 1, 2, 3]
  running := true

theorem bestSpec_foldl (ms : List Mode) : BestSpec ms (ms.foldl evaluateMode none) := by
  induction ms using List.reverseRecOn with
  | nil => intro m hm; simp at hm
  | append_singleton ms m ih =>
    rw [List.foldl_append, List.foldl_cons, List.foldl_nil]
    rcases hacc : ms.foldl evaluateMode none with _ | b
    · rw [hacc] at ih
      by_cases hv : m.valid
      · simp only [evaluateMode, if_pos hv]
        refine ⟨hv, ?_, ms, [], rfl, ?_⟩
        · intro x hx hxv
          rcases List.mem_append.1 hx with h | h
          · exact absurd hxv (ih x h)
          · simp at h; simp [h]
        · intro x hx hxv; exact absurd hxv (ih x hx)
      · simp only [evaluateMode, if_neg hv]
        intro x hx
        rcases List.mem_append.1 hx with h | h
        · exact ih x h
        · simp at h; simpa [h] using hv
    · rw [hacc] at ih
      obtain ⟨hbv, hmax, l₁, l₂, hsplit, hearly⟩ := ih
      by_cases hv : m.valid
      · by_cases hlt : b.score < m.score
        · simp only [evaluateMode, if_pos hv, if_pos hlt]
          refine ⟨hv, ?_, ms, [], rfl, ?_⟩
          · intro x hx hxv
            rcases List.mem_append.1 hx with h | h
            · exact le_of_lt (lt_of_le_of_lt (hmax x h hxv) hlt)
            · simp at h; simp [h]
          · intro x hx hxv
            exact lt_of_le_of_lt (hmax x hx hxv) hlt
        · simp only [evaluateMode, if_pos hv, if_neg hlt]
          refine ⟨hbv, ?_, l₁, l₂ ++ [m], by simp [hsplit], hearly⟩
          intro x hx hxv
          rcases List.mem_append.1 hx with h | h
          · exact hmax x h hxv
          · simp at h; subst h; exact le_of_not_lt hlt
      · simp only [evaluateMode, if_neg hv]
        refine ⟨hbv, ?_, l₁, l₂ ++ [m], by simp [hsplit], hearly⟩
        intro x hx hxv
        rcases List.mem_append.1 hx with h | h
        · exact hmax x h hxv
        · simp at h; subst h; exact absurd hxv hv

/-- C1: when mode selection returns a candidate, that candidate is valid,
comes from the enumerated sequence, maximises `width × height × fps` among
all valid enumerated candidates, and is the earliest-enumerated candidate
achieving that score: every candidate enumerated strictly before it has a
strictly smaller score. -/
theorem C1_mode_selection (ms : List Mode) (b : Mode)
    (h : selectBest ms = some b) :
    b.valid ∧ b ∈ ms ∧ (∀ m ∈ ms, m.valid → m.score ≤ b.score) ∧
    ∃ l₁ l₂, ms = l₁ ++ b :: l₂ ∧ ∀ m ∈ l₁, m.valid → m.score < b.score := by
  have hspec := bestSpec_foldl ms
  rw [selectBest] at h
  rw [h] at hspec
  obtain ⟨hv, hmax, l₁, l₂, hsplit, hearly⟩ := hspec
  exact ⟨hv, hsplit ▸ List.mem_append.2 (Or.inr (List.mem_cons_self _ _)),
    hmax, l₁, l₂, hsplit, hearly⟩

/-- C1 witness: on a concrete enumeration containing a tie (two 1920×1080@60
candidates), the selected mode is the first-enumerated one of maximal score. -/
theorem C1_mode_selection_witness :
    (Mode.mk 1920 1080 1 60).valid ∧
    Mode.mk 1920 1080 1 60 ∈
      [Mode.mk 640 480 1 30, Mode.mk 1920 1080 1 60, Mode.mk 1920 1080 1 60] ∧
    (∀ m ∈ [Mode.mk 640 480 1 30, Mode.mk 1920 1080 1 60, Mode.mk 1920 1080 1 60],
      m.valid → m.score ≤ (Mode.mk 1920 1080 1 60).score) ∧
    ∃ l₁ l₂,
      [Mode.mk 640 480 1 30, Mode.mk 1920 1080 1 60, Mode.mk 1920 1080 1 60]
        = l₁ ++ Mode.mk 1920 1080 1 60 :: l₂ ∧
      ∀ m ∈ l₁, m.valid → m.score < (Mode.mk 1920 1080 1 60).score :=
  C1_mode_selection _ _ (by
    simp [selectBest, evaluateMode, Mode.valid, Mode.score, Mode.fps]
    norm_num)

/-- C2 counterexample: a 640×720 image is strictly smaller than 1280×720,
yet the code selects the BT.709 coefficient set for it (the condition is a
disjunction `width ≥ 1280 || height ≥ 720`, not a conjunction), refuting
"all smaller images use the BT.601 weights". -/
theorem C2_cex_smaller_image_uses_bt709 :
    selectCoeffs 640 720 = bt709 ∧ ¬ (1280 ≤ 640 ∧ 720 ≤ 720) ∧ bt709 ≠ bt601 := by
  refine ⟨rfl, by decide, by decide⟩

/-- C2 (amended): the YUYV→RGB conversion uses the BT.709 coefficient set
exactly when `width ≥ 1280` **or** `height ≥ 720`, and the BT.601 set
otherwise. -/
theorem C2_coeff_selection (width height : Nat) :
    selectCoeffs width height
      = (if 1280 ≤ width ∨ 720 ≤ height then bt709 else bt601) := by
  unfold selectCoeffs useBT709
  by_cases hw : 1280 ≤ width
  · simp [hw]
  · by_cases hh : 720 ≤ height <;> simp [hw, hh]

/-- C3: on the BT.601 path (e.g. a 640×480 frame, below 720p), the fixture
sample `Y=235, U=128, V=128` converts exactly to `(255,255,255)` and
`Y=16, U=128, V=128` converts exactly to `(0,0,0)` — in particular each
channel is within ±1 of the specified value. -/
theorem C3_bt601_fixture :
    selectCoeffs 640 480 = bt601 ∧
    yuyvMacropixel 640 480 235 128 235 128 = ((255, 255, 255), (255, 255, 255)) ∧
    yuyvMacropixel 640 480 16 128 16 128 = ((0, 0, 0), (0, 0, 0)) := by
  refine ⟨rfl, by decide, by decide⟩

theorem copyLoop_eq (fifo : List Int) (needed : Nat) :
    copyLoop fifo needed = (fifo.take needed, fifo.drop needed) := by
  induction fifo generalizing needed with
  | nil => cases needed <;> simp [copyLoop]
  | cons x f ih =>
    cases needed with
    | zero => simp [copyLoop]
    | succ n => simp [copyLoop, ih]

/-- C5: for a playback callback requesting `needed` samples, the sink
buffer receives exactly `needed` samples — the first `min(needed, size)`
FIFO samples, in order from the front, followed by zeros — and exactly
those samples leave the FIFO. The model is a total function: the callback
never waits for more input. -/
theorem C5_playback_exact (fifo : List Int) (needed : Nat) :
    (playbackStep fifo needed).1.length = needed ∧
    (playbackStep fifo needed).1
      = fifo.take needed ++ List.replicate (needed - fifo.length) 0 ∧
    (playbackStep fifo needed).2 = fifo.drop needed := by
  have hmin : needed - min needed fifo.length = needed - fifo.length := by omega
  refine ⟨?_, ?_, ?_⟩
  · simp only [playbackStep, copyLoop_eq, List.length_append,
      List.length_take, List.length_replicate]
    omega
  · simp [playbackStep, copyLoop_eq, List.length_take, hmin]
  · simp [playbackStep, copyLoop_eq]

/-- C4 counterexample to the claim as stated: with
`max_fifo_samples = 4`, a callback pushing 5 samples legitimately leaves 5
samples in the FIFO (its own bound is `max(4, 20) = 20`), but the next
callback carrying a zero-length buffer leaves the FIFO untouched at 5
samples, exceeding that invocation's claimed bound
`max(max_fifo_samples, 4 × 0) = 4`. -/
theorem C4_cex_zero_push_callback :
    (captureStep 4 (captureStep 4 [] [1, 2, 3, 4, 5]) []).length = 5 ∧
    ¬ (captureStep 4 (captureStep 4 [] [1, 2, 3, 4, 5]) []).length
        ≤ max 4 (4 * ([] : List Int).length) := by
  decide

/-- C4 (amended): after every capture-callback invocation that pushes at
least one sample, the FIFO holds at most
`max(max_fifo_samples, 4 × samples pushed)` samples; the post-FIFO is a
suffix of old-FIFO ++ pushed (only oldest samples are discarded), and the
pushed samples are themselves a suffix of the result (the newest are never
discarded). A callback pushing nothing leaves the FIFO unchanged. -/
theorem C4_fifo_bound (maxFifo : Nat) (fifo buf : List Int)
    (h : buf ≠ []) :
    (captureStep maxFifo fifo buf).length ≤ max maxFifo (4 * buf.length) ∧
    captureStep maxFifo fifo buf <:+ fifo ++ buf ∧
    buf <:+ captureStep maxFifo fifo buf := by
  have hlen : ¬ buf.length = 0 := by
    simpa using fun hh => h (List.length_eq_zero.mp hh)
  unfold captureStep trimFront
  rw [if_neg hlen]
  have hk : (fifo ++ buf).length - max maxFifo (4 * buf.length) ≤ fifo.length := by
    rw [List.length_append]; omega
  refine ⟨?_, List.drop_suffix _ _, ?_⟩
  · rw [List.length_drop]; omega
  · rw [List.drop_append_eq_append_drop, Nat.sub_eq_zero_of_le hk,
      List.drop_zero]
    exact ⟨_, rfl⟩

/-- C4 witness: a concrete overflowing push obeys the amended bound. -/
theorem C4_fifo_bound_witness :
    (captureStep 2 [0, 1, 2] [5, 6]).length ≤ max 2 (4 * [(5 : Int), 6].length) ∧
    captureStep 2 [0, 1, 2] [5, 6] <:+ [0, 1, 2] ++ [5, 6] ∧
    [(5 : Int), 6] <:+ captureStep 2 [0, 1, 2] [5, 6] :=
  C4_fifo_bound 2 [0, 1, 2] [5, 6] (by decide)

theorem qtrunc_intCast (n : ℤ) : qtrunc (n : ℚ) = n := by
  unfold qtrunc
  split
  · exact Int.ceil_intCast n
  · exact Int.floor_intCast n

theorem qtrunc_mono {p q : ℚ} (h : p ≤ q) : qtrunc p ≤ qtrunc q := by
  unfold qtrunc
  by_cases hp : p < 0
  · by_cases hq : q < 0
    · rw [if_pos hp, if_pos hq]; exact Int.ceil_mono h
    · rw [if_pos hp, if_neg hq]
      have h1 : ⌈p⌉ ≤ (0 : ℤ) := Int.ceil_le.mpr (by simpa using hp.le)
      have h2 : (0 : ℤ) ≤ ⌊q⌋ := Int.floor_nonneg.mpr (not_lt.mp hq)
      omega
  · by_cases hq : q < 0
    · exact absurd (lt_of_le_of_lt h hq) hp
    · rw [if_neg hp, if_neg hq]; exact Int.floor_mono h

theorem qtrunc_clamp (a b : ℤ) (hab : a ≤ b) (q : ℚ) :
    qtrunc (max (a : ℚ) (min (b : ℚ) q)) = max a (min b (qtrunc q)) := by
  rcases le_total q (a : ℚ) with hqa | haq
  · rw [max_eq_left (le_trans (min_le_right _ _) hqa), qtrunc_intCast]
    have h2 : qtrunc q ≤ a := by
      have := qtrunc_mono hqa; rwa [qtrunc_intCast] at this
    omega
  · rcases le_total q (b : ℚ) with hqb | hbq
    · rw [min_eq_right hqb, max_eq_right haq]
      have h1 : a ≤ qtrunc q := by
        have := qtrunc_mono haq; rwa [qtrunc_intCast] at this
      have h2 : qtrunc q ≤ b := by
        have := qtrunc_mono hqb; rwa [qtrunc_intCast] at this
      omega
    · have hab' : (a : ℚ) ≤ (b : ℚ) := by exact_mod_cast hab
      rw [min_eq_left hbq, max_eq_right hab', qtrunc_intCast]
      have h2 : b ≤ qtrunc q := by
        have := qtrunc_mono hbq; rwa [qtrunc_intCast] at this
      omega

/-- C9 counterexample to the claim as stated: the gain stage is skipped
whenever `|gain − 1| ≤ 10⁻³`. With `g = 2001/2000 = 1.0005` and input
sample `10000`, the stored sample is the unmodified `10000`, while the
claim demands `clamp(10000 × 1.0005) = 10005` (an exact integer here, so
no rounding reading rescues the claim). -/
theorem C9_cex_near_unity_gain_skipped :
    applyGain (2001 / 2000) 10000 = 10000 ∧
    max (-32768) (min 32767 (qtrunc (((10000 : ℤ) : ℚ) * (2001 / 2000)))) = 10005 ∧
    (10000 : ℤ) ≠ 10005 := by
  refine ⟨?_, ?_, by decide⟩
  · unfold applyGain
    rw [if_neg (by
      rw [show (2001 / 2000 : ℚ) - 1 = 1 / 2000 by norm_num,
        abs_of_nonneg (by norm_num : (0 : ℚ) ≤ 1 / 2000)]
      norm_num)]
  · have h1 : (((10000 : ℤ) : ℚ)) * (2001 / 2000) = ((10005 : ℤ) : ℚ) := by
      norm_num
    rw [h1, qtrunc_intCast]
    norm_num

/-- C9 (amended): whenever `|g − 1| > 10⁻³`, the stored sample is the input
sample multiplied by `g`, truncated toward zero and clamped to
`[-32768, 32767]`; whenever `|g − 1| ≤ 10⁻³` the gain stage is skipped and
the sample is stored unchanged. -/
theorem C9_gain_clamp (g : ℚ) (s : ℤ) :
    applyGain g s = if 1 / 1000 < |g - 1|
      then max (-32768) (min 32767 (qtrunc ((s : ℚ) * g)))
      else s := by
  unfold applyGain
  by_cases h : 1 / 1000 < |g - 1|
  · rw [if_pos h, if_pos h]
    have h2 := qtrunc_clamp (-32768) 32767 (by norm_num) ((s : ℚ) * g)
    norm_num at h2
    exact h2
  · rw [if_neg h, if_neg h]

theorem configureDevice_fields (dev : DeviceBehavior) (st : SessionState) :
    (configureDevice dev st).2.preset = st.preset ∧
    (configureDevice dev st).2.running = st.running ∧
    (configureDevice dev st).2.devicePath = st.devicePath := by
  unfold configureDevice
  dsimp only
  split_ifs <;> simp

/-- Stopping then overwriting path and preset, as `start` does before
configuring, yields this state whatever came before. -/
theorem stop_then_reconfig (st : SessionState) (path : String)
    (preset : LatencyPreset) :
    ({ stopSession st with devicePath := path, preset := preset } : SessionState)
      = ⟨path, preset, false, [], false⟩ := by
  simp [stopSession, teardownBuffers]

theorem startSession_eq (dev : DeviceBehavior) (path : String)
    (preset : LatencyPreset) (st : SessionState) :
    startSession dev path preset st =
      (if (configureDevice dev ⟨path, preset, false, [], false⟩).1 then
        (true, { (configureDevice dev ⟨path, preset, false, [], false⟩).2 with
          running := true })
      else
        (false,
          teardownBuffers (configureDevice dev ⟨path, preset, false, [], false⟩).2)) :=
  rfl

theorem startSession_spec (dev : DeviceBehavior) (path : String)
    (preset : LatencyPreset) (st : SessionState) :
    (startSession dev path preset st).2.preset = preset ∧
    (startSession dev path preset st).2.devicePath = path ∧
    ((startSession dev path preset st).1 = false →
      (startSession dev path preset st).2.running = false ∧
      (startSession dev path preset st).2.mapped = [] ∧
      (startSession dev path preset st).2.fdOpen = false) := by
  have hc := configureDevice_fields dev (⟨path, preset, false, [], false⟩ : SessionState)
  by_cases hok :
      (configureDevice dev (⟨path, preset, false, [], false⟩ : SessionState)).1 = true
  · rw [startSession_eq, if_pos hok]
    refine ⟨by simpa using hc.1, by simpa using hc.2.2, ?_⟩
    intro hfalse
    simp at hfalse
  · rw [startSession_eq, if_neg hok]
    dsimp only [teardownBuffers]
    exact ⟨by simpa using hc.1, by simpa using hc.2.2,
      fun _ => ⟨by simpa using hc.2.1, rfl, rfl⟩⟩

/-- C7: whenever `configure_device` fails at any of its steps (open,
capability query, capability checks, format set, buffer request, the
query/map/enqueue loop, stream-on) — it runs on a freshly stopped session
carrying the requested path and preset — `start` returns `false`, the
partially allocated resources are all released (no mapped buffers,
descriptor closed), and the session is Idle with `is_running()` false. -/
theorem C7_start_failure_cleanup (dev : DeviceBehavior) (path : String)
    (preset : LatencyPreset) (st : SessionState)
    (h : (configureDevice dev ⟨path, preset, false, [], false⟩).1 = false) :
    (startSession dev path preset st).1 = false ∧
    (startSession dev path preset st).2.running = false ∧
    (startSession dev path preset st).2.mapped = [] ∧
    (startSession dev path preset st).2.fdOpen = false := by
  have hspec := startSession_spec dev path preset st
  have h1 : (startSession dev path preset st).1 = false := by
    rw [startSession_eq, if_neg]
    simp [h]
  exact ⟨h1, hspec.2.2 h1⟩

/-- C7 witness: a device whose capability query fails. -/
theorem C7_start_failure_cleanup_witness :
    (startSession querycapFailDevice "/dev/video0" .Safe runningState).1 = false ∧
    (startSession querycapFailDevice "/dev/video0" .Safe runningState).2.running = false ∧
    (startSession querycapFailDevice "/dev/video0" .Safe runningState).2.mapped = [] ∧
    (startSession querycapFailDevice "/dev/video0" .Safe runningState).2.fdOpen = false :=
  C7_start_failure_cleanup querycapFailDevice "/dev/video0" .Safe runningState rfl

/-- C8: with no explicit node id and a node-resolution scan that finds no
match within the deadline, `start` sets the fallback flag and proceeds on
the default route (no resolved node id, i.e. `PW_ID_ANY`); the call still
succeeds exactly when the main loop and the capture stream can be created
— a playback-stream failure does not fail the call, and resolution failure
alone never does. -/
theorem C8_fallback_still_succeeds (be : AudioBackend)
    (h : be.resolveFinds = none) :
    (pwStart be none).fallback = true ∧
    (pwStart be none).resolvedNode = none ∧
    (pwStart be none).ok = (be.loopOk && be.captureOk) := by
  unfold pwStart
  by_cases hl : be.loopOk <;> by_cases hc : be.captureOk <;>
    simp [h, hl, hc]

/-- C8 witness: no match found, playback stream creation failing, loop and
capture fine — `start` still reports success with the fallback flag set. -/
theorem C8_fallback_still_succeeds_witness :
    (pwStart ⟨none, true, false, true⟩ none).fallback = true ∧
    (pwStart ⟨none, true, false, true⟩ none).resolvedNode = none ∧
    (pwStart ⟨none, true, false, true⟩ none).ok
      = (AudioBackend.loopOk ⟨none, true, false, true⟩
          && AudioBackend.captureOk ⟨none, true, false, true⟩) :=
  C8_fallback_still_succeeds ⟨none, true, false, true⟩ rfl

/-- C10: after `set_latency_preset p`, `latency_preset()` returns `p` in
every case — including when the running session's stop/start restart fails
and the call returns `false`: the previous preset is not restored and the
session is left Idle (`is_running()` false) with the new preset
recorded. -/
theorem C10_preset_recorded (dev : DeviceBehavior) (preset : LatencyPreset)
    (st : SessionState) :
    (setLatencyPreset dev preset st).2.preset = preset ∧
    ((setLatencyPreset dev preset st).1 = false →
      (setLatencyPreset dev preset st).2.running = false) := by
  unfold setLatencyPreset
  by_cases h : preset = st.preset
  · simp [h]
  · rw [if_neg h]
    dsimp only
    by_cases hr : st.running = true
    · rw [if_neg (by simp [hr])]
      have hspec := startSession_spec dev
        ({ st with preset := preset } : SessionState).devicePath preset
        (stopSession { st with preset := preset })
      exact ⟨hspec.1, fun hf => (hspec.2.2 hf).1⟩
    · rw [if_pos (by simpa using hr)]
      simp

theorem scanNodes_stop (bus : String) (hints : List String) (i : Nat)
    (l : List NodeProps) :
    l.foldl
      (fun acc n =>
        match acc with
        | some j => some j
        | none => matchNode bus hints n)
      (some i) = some i := by
  induction l with
  | nil => rfl
  | cons x xs ih => simpa [List.foldl] using ih

theorem scanNodes_cons (bus : String) (hints : List String) (n : NodeProps)
    (l : List NodeProps) :
    scanNodes bus hints (n :: l) =
      match matchNode bus hints n with
      | some i => some i
      | none => scanNodes bus hints l := by
  cases hm : matchNode bus hints n with
  | none => simp [scanNodes, List.foldl, hm]
  | some i => simp [scanNodes, List.foldl, hm, scanNodes_stop]

theorem matchNode_bus (bus : String) (hints : List String) (n : NodeProps)
    (hnode : n.isNode = true)
    (hmc : ∃ mc, n.mediaClass = some mc ∧ containsSub mc "Audio/Source" = true)
    (hbus : (n.deviceBusPath.orElse fun _ =>
      (n.deviceBus.orElse fun _ => n.deviceSerial)) = some bus) :
    matchNode bus hints n = some n.id := by
  obtain ⟨mc, h1, h2⟩ := hmc
  simp [matchNode, hnode, h1, h2, hbus]

/-- C6 counterexample to the claim as stated: the scan hints are bus path
`"usb-0000.14.2"` and description `"Cap Device"`; the scanned set holds a
description-only match (`descOnlyNode`, id 1, bus `"usb-9"`) enumerated
before the exact bus-path match (`busMatchNode`, id 2). The scan selects
id 1 — the first match in enumeration order — not the bus-path-matching
node, because the callback stops at the first match of either kind. -/
theorem C6_cex_desc_match_enumerated_first :
    (busMatchNode.deviceBusPath.orElse fun _ =>
      (busMatchNode.deviceBus.orElse fun _ => busMatchNode.deviceSerial))
        = some "usb-0000.14.2" ∧
    descOnlyNode.deviceBusPath = some "usb-9" ∧
    matchNode "usb-0000.14.2" (buildHints (some "Cap Device")) descOnlyNode
      = some 1 ∧
    scanNodes "usb-0000.14.2" (buildHints (some "Cap Device"))
      [descOnlyNode, busMatchNode] = some 1 ∧
    descOnlyNode.id ≠ busMatchNode.id := by
  exact ⟨rfl, rfl, by decide, by decide, by decide⟩

/-- C6 (amended): the scan selects the first node, in enumeration order,
that matches either criterion; in particular the node whose bus/serial
identifier exactly equals the busPath hint is selected whenever no
earlier-enumerated node matches at all — regardless of any later
description-only matches. Bus-path priority over the description hint
holds within a single node's checks, not across distinct nodes. -/
theorem C6_bus_match_selected (bus : String) (hints : List String)
    (l₁ l₂ : List NodeProps) (n : NodeProps)
    (h₁ : ∀ m ∈ l₁, matchNode bus hints m = none)
    (hnode : n.isNode = true)
    (hmc : ∃ mc, n.mediaClass = some mc ∧ containsSub mc "Audio/Source" = true)
    (hbus : (n.deviceBusPath.orElse fun _ =>
      (n.deviceBus.orElse fun _ => n.deviceSerial)) = some bus) :
    scanNodes bus hints (l₁ ++ n :: l₂) = some n.id := by
  have h₂ := matchNode_bus bus hints n hnode hmc hbus
  induction l₁ with
  | nil => rw [List.nil_append, scanNodes_cons, h₂]
  | cons x xs ih =>
    rw [List.cons_append, scanNodes_cons, h₁ x (by simp)]
    exact ih (fun m hm => h₁ m (List.mem_cons_of_mem _ hm))

/-- C6 witness: with an unrelated node first, the bus-path match second and
a description-only match last, the bus-path match is selected. -/
theorem C6_bus_match_selected_witness :
    scanNodes "usb-0000.14.2" (buildHints (some "Cap Device"))
      ([unrelatedNode] ++ busMatchNode :: [descOnlyNode])
      = some busMatchNode.id :=
  C6_bus_match_selected "usb-0000.14.2" (buildHints (some "Cap Device"))
    [unrelatedNode] [descOnlyNode] busMatchNode
    (by intro m hm; simp at hm; subst hm; decide)
    rfl ⟨"Audio/Source", rfl, by decide⟩ rfl

/-- C10 witness: changing the preset on a running session whose restart
fails (capability query failure) records the new preset and leaves the
session Idle. -/
theorem C10_preset_recorded_witness :
    (setLatencyPreset querycapFailDevice .UltraLow runningState).2.preset = .UltraLow ∧
    ((setLatencyPreset querycapFailDevice .UltraLow runningState).1 = false →
      (setLatencyPreset querycapFailDevice .UltraLow runningState).2.running = false) :=
  C10_preset_recorded querycapFailDevice .UltraLow runningState

end Syzygy
